import Mathlib

/-!
Shallow embedding of the miniflux-mcp server (src/server.ts) in Lean 4.

The embedding follows the first (authoritative) variant of src/server.ts:
string-normalization helpers, the tiered name resolvers
resolveCategoryId / resolveFeedId, the searchEntries path selection,
query-parameter construction, the temporal normalizer toUnixSeconds,
and the pagination calculation.  JavaScript strings are modelled as
Lean strings; JavaScript numbers are modelled as exact rationals
(faithful for every value below 2^53, which covers all inputs considered
here); null/undefined values are modelled with Option.
-/

namespace MinifluxMcp

/-- Model of the combining-diacritical-marks test used by the source's
regular expression `[̀-ͯ]`. -/
def isCombiningMark (c : Char) : Bool :=
  decide (0x300 ≤ c.toNat) && decide (c.toNat ≤ 0x36F)

/-- Combining acute accent U+0301. -/
def combAcute : Char := Char.ofNat 0x301

/-- Combining grave accent U+0300. -/
def combGrave : Char := Char.ofNat 0x300

/-- Combining diaeresis U+0308. -/
def combDiaeresis : Char := Char.ofNat 0x308

/-- Model of the JavaScript runtime's `String.prototype.normalize("NFKD")`
at the level of a single character, restricted to the precomposed Latin
letters exercised in this development; every other character is left
unchanged (which is exact for ASCII). -/
def nfkdChar (c : Char) : List Char :=
  if c = 'á' then ['a', combAcute]
  else if c = 'é' then ['e', combAcute]
  else if c = 'í' then ['i', combAcute]
  else if c = 'ó' then ['o', combAcute]
  else if c = 'ú' then ['u', combAcute]
  else if c = 'Á' then ['A', combAcute]
  else if c = 'É' then ['E', combAcute]
  else if c = 'Í' then ['I', combAcute]
  else if c = 'Ó' then ['O', combAcute]
  else if c = 'Ú' then ['U', combAcute]
  else if c = 'à' then ['a', combGrave]
  else if c = 'è' then ['e', combGrave]
  else if c = 'ì' then ['i', combGrave]
  else if c = 'ò' then ['o', combGrave]
  else if c = 'ù' then ['u', combGrave]
  else if c = 'ä' then ['a', combDiaeresis]
  else if c = 'ë' then ['e', combDiaeresis]
  else if c = 'ï' then ['i', combDiaeresis]
  else if c = 'ö' then ['o', combDiaeresis]
  else if c = 'ü' then ['u', combDiaeresis]
  else [c]

/-- Embedding of `stripDiacritics` (server.ts line 58): NFKD-normalize and
remove the combining marks in the range U+0300 to U+036F. -/
def stripDiacritics (s : String) : String :=
  String.mk ((s.toList.flatMap nfkdChar).filter (fun c => !isCombiningMark c))

/-- Embedding of `toLower` (server.ts line 62): stripDiacritics followed by
lowercasing.  Char.toLower lowercases exactly the ASCII letters, which is
exact for the diacritic-stripped ASCII strings considered here. -/
def toLower (s : String) : String :=
  String.mk ((stripDiacritics s).toList.map Char.toLower)

/-- Embedding of `collapseNonAlnum` (server.ts line 66): toLower followed by
removal of every character outside `[a-zA-Z0-9]` (the source regular
expression `[^a-z0-9]` with the `i` flag). -/
def collapseNonAlnum (s : String) : String :=
  String.mk ((toLower s).toList.filter Char.isAlphanum)

/-- Splits a character list into the maximal runs of ASCII-alphanumeric
characters, dropping empty runs; this is exactly what the source's
`split(/[^a-z0-9]+/gi)` followed by filtering empty tokens computes. -/
def splitAlnumRuns : List Char → List Char → List String
  | [], acc => if acc.isEmpty then [] else [String.mk acc.reverse]
  | c :: rest, acc =>
    if c.isAlphanum then splitAlnumRuns rest (c :: acc)
    else if acc.isEmpty then splitAlnumRuns rest []
    else String.mk acc.reverse :: splitAlnumRuns rest []

/-- Embedding of `tokenizeAlnum` (server.ts line 70): toLower, split on runs
of non-alphanumeric characters, drop empty tokens. -/
def tokenizeAlnum (s : String) : List String :=
  splitAlnumRuns (toLower s).toList []

/-- Embedding of `tokensAreSubset` (server.ts line 76): a non-empty query
token list all of whose tokens occur among the target tokens. -/
def tokensAreSubset (queryTokens targetTokens : List String) : Bool :=
  if queryTokens.length = 0 then false
  else queryTokens.all (fun token => targetTokens.contains token)

/-- Model of the JavaScript `String.prototype.includes`: substring
containment, with the empty string contained in every string. -/
def containsSub (hay pat : List Char) : Bool :=
  match hay with
  | [] => pat.isEmpty
  | _ :: t => pat.isPrefixOf hay || containsSub t pat

/-- String-level wrapper for `containsSub`; `jsIncludes s p` models
`s.includes(p)`. -/
def jsIncludes (s pat : String) : Bool :=
  containsSub s.toList pat.toList

/-- Embedding of the `Category` interface (server.ts line 53). -/
structure Category where
  id : Int
  title : String
deriving Repr, DecidableEq

/-- Embedding of the `Feed` interface (server.ts line 54); the nullable
URL fields are modelled with Option. -/
structure Feed where
  id : Int
  title : String
  site_url : Option String
  feed_url : Option String
deriving Repr, DecidableEq

/-- Candidate record returned inside an `AMBIGUOUS_FEED` payload:
id, title and both URLs (server.ts lines 317-322). -/
structure FeedCandidate where
  id : Int
  title : String
  site_url : Option String
  feed_url : Option String
deriving Repr, DecidableEq

/-- Outcome of the category resolver: the `category_id` success payload,
the `AMBIGUOUS_CATEGORY` error payload with its candidate list, or the
`CATEGORY_NOT_FOUND` error payload. -/
inductive CatResolution where
  | matched (id : Int)
  | ambiguous (candidates : List (Int × String))
  | notFound
deriving Repr, DecidableEq

/-- Outcome of the feed resolver: the `feed_id` success payload, the
`AMBIGUOUS_FEED` error payload with its candidate list, or the
`FEED_NOT_FOUND` error payload. -/
inductive FeedResolution where
  | matched (id : Int)
  | ambiguous (candidates : List FeedCandidate)
  | notFound
deriving Repr, DecidableEq

/-- Equality tiers 1-3 of `resolveCategoryId` (server.ts lines 151-162):
exact title equality, then case-insensitive equality, then collapsed
equality, each tried only when the previous found nothing. -/
def catTier123 (categories : List Category) (raw : String) : Option Category :=
  match categories.find? (fun c => c.title == raw) with
  | some m => some m
  | none =>
    match categories.find? (fun c => toLower c.title == toLower raw) with
    | some m => some m
    | none => categories.find? (fun c => collapseNonAlnum c.title == collapseNonAlnum raw)

/-- Tier 4 of `resolveCategoryId` (server.ts lines 169-171): the categories
whose token set contains every query token. -/
def catTokenCandidates (categories : List Category) (raw : String) : List Category :=
  categories.filter (fun c => tokensAreSubset (tokenizeAlnum raw) (tokenizeAlnum c.title))

/-- Tier 5 of `resolveCategoryId` (server.ts lines 195-201): the categories
whose folded or collapsed title contains the folded resp. collapsed query. -/
def catPartial (categories : List Category) (raw : String) : List Category :=
  categories.filter (fun c =>
    jsIncludes (toLower c.title) (toLower raw) ||
    jsIncludes (collapseNonAlnum c.title) (collapseNonAlnum raw))

/-- Embedding of the `resolveCategoryId` tool handler (server.ts
lines 142-232). -/
def resolveCategoryId (categories : List Category) (category_name : String) :
    CatResolution :=
  match catTier123 categories category_name with
  | some m => .matched m.id
  | none =>
    let tokenCandidates := catTokenCandidates categories category_name
    if tokenCandidates.length = 1 then
      .matched (tokenCandidates.headD ⟨0, ""⟩).id
    else if 1 < tokenCandidates.length then
      .ambiguous (tokenCandidates.map (fun c => (c.id, c.title)))
    else
      let partial_ := catPartial categories category_name
      if partial_.length = 1 then
        .matched (partial_.headD ⟨0, ""⟩).id
      else if 1 < partial_.length then
        .ambiguous (partial_.map (fun c => (c.id, c.title)))
      else
        .notFound

/-- Tier 1 of `resolveFeedId` (server.ts line 260): exact case-sensitive
title equality. -/
def feedExactTitle (feeds : List Feed) (raw : String) : Option Feed :=
  feeds.find? (fun f => f.title == raw)

/-- Tier 2 of `resolveFeedId` (server.ts lines 270-275): case-insensitive
equality against title, site_url and feed_url. -/
def feedCiEquals (feeds : List Feed) (raw : String) : Option Feed :=
  feeds.find? (fun f =>
    toLower f.title == toLower raw ||
    toLower (f.site_url.getD "") == toLower raw ||
    toLower (f.feed_url.getD "") == toLower raw)

/-- Tier 3 of `resolveFeedId` (server.ts lines 285-290): collapsed equality
against title, site_url and feed_url. -/
def feedCollapsedEq (feeds : List Feed) (raw : String) : Option Feed :=
  feeds.find? (fun f =>
    collapseNonAlnum f.title == collapseNonAlnum raw ||
    collapseNonAlnum (f.site_url.getD "") == collapseNonAlnum raw ||
    collapseNonAlnum (f.feed_url.getD "") == collapseNonAlnum raw)

/-- Tier 4 of `resolveFeedId` (server.ts lines 300-302): token-subset match
on the title only. -/
def feedTokenCandidates (feeds : List Feed) (raw : String) : List Feed :=
  feeds.filter (fun f => tokensAreSubset (tokenizeAlnum raw) (tokenizeAlnum f.title))

/-- Tier 5 of `resolveFeedId` (server.ts lines 331-343): substring
containment on the folded and collapsed forms of title, site_url and
feed_url. -/
def feedPartial (feeds : List Feed) (raw : String) : List Feed :=
  feeds.filter (fun f =>
    jsIncludes (toLower f.title) (toLower raw) ||
    jsIncludes (toLower (f.site_url.getD "")) (toLower raw) ||
    jsIncludes (toLower (f.feed_url.getD "")) (toLower raw) ||
    jsIncludes (collapseNonAlnum f.title) (collapseNonAlnum raw) ||
    jsIncludes (collapseNonAlnum (f.site_url.getD "")) (collapseNonAlnum raw) ||
    jsIncludes (collapseNonAlnum (f.feed_url.getD "")) (collapseNonAlnum raw))

/-- Projection of a feed to the candidate record used in ambiguity
payloads. -/
def feedToCandidate (f : Feed) : FeedCandidate :=
  ⟨f.id, f.title, f.site_url, f.feed_url⟩

/-- Embedding of the `resolveFeedId` tool handler (server.ts
lines 250-379). -/
def resolveFeedId (feeds : List Feed) (feed_query : String) : FeedResolution :=
  match feedExactTitle feeds feed_query with
  | some f => .matched f.id
  | none =>
    match feedCiEquals feeds feed_query with
    | some f => .matched f.id
    | none =>
      match feedCollapsedEq feeds feed_query with
      | some f => .matched f.id
      | none =>
        let tokenCandidates := feedTokenCandidates feeds feed_query
        if tokenCandidates.length = 1 then
          .matched (tokenCandidates.headD ⟨0, "", none, none⟩).id
        else if 1 < tokenCandidates.length then
          .ambiguous (tokenCandidates.map feedToCandidate)
        else
          let partial_ := feedPartial feeds feed_query
          if partial_.length = 1 then
            .matched (partial_.headD ⟨0, "", none, none⟩).id
          else if 1 < partial_.length then
            .ambiguous (partial_.map feedToCandidate)
          else
            .notFound

/-- Numeric value of a decimal digit character. -/
def digitVal (c : Char) : Nat := c.toNat - 48

/-- Value of a list of decimal digit characters, most significant first;
models the JavaScript `Number(s)` conversion of a digit-only string
(exact, where the runtime would round values at or above 2^53). -/
def digitsToNat (cs : List Char) : Nat :=
  cs.foldl (fun a c => a * 10 + digitVal c) 0

/-- List-level trim of leading and trailing whitespace. -/
def trimChars (cs : List Char) : List Char :=
  ((cs.dropWhile Char.isWhitespace).reverse.dropWhile Char.isWhitespace).reverse

/-- Model of the JavaScript `String.prototype.trim`, restricted to ASCII
whitespace (which covers every input considered here). -/
def jsTrim (s : String) : String := String.mk (trimChars s.toList)

/-- Loosely-typed input of the temporal normalizer `toUnixSeconds`:
null/undefined, a finite number (modelled as an exact rational), a
non-finite number (NaN or an infinity), or a string. -/
inductive TimeInput where
  | jnull
  | jnum (q : ℚ)
  | jnonfinite
  | jstr (s : String)

/-- The numeric branch shared by the number case and the digit-string case
of `toUnixSeconds` (server.ts lines 85 and 93):
`Math.floor(n > 1e12 ? n / 1000 : n)`. -/
def jsNumToUnix (q : ℚ) : Int :=
  ⌊if (1000000000000 : ℚ) < q then q / 1000 else q⌋

/-- True on 29 February years: the Gregorian leap-year rule. -/
def isLeapYear (y : Int) : Bool :=
  (y % 4 == 0 && y % 100 != 0) || y % 400 == 0

/-- Number of days in a month of a given year. -/
def daysInMonth (y : Int) (m : Nat) : Nat :=
  match m with
  | 1 => 31 | 2 => if isLeapYear y then 29 else 28
  | 3 => 31 | 4 => 30 | 5 => 31 | 6 => 30
  | 7 => 31 | 8 => 31 | 9 => 30 | 10 => 31 | 11 => 30 | 12 => 31
  | _ => 0

/-- Number of days from 1970-01-01 to the given civil date (standard
days-from-civil computation over the proleptic Gregorian calendar). -/
def daysFromCivil (y : Int) (m d : Nat) : Int :=
  let y' : Int := if m ≤ 2 then y - 1 else y
  let era : Int := (if 0 ≤ y' then y' else y' - 399) / 400
  let yoe : Int := y' - era * 400
  let doy : Int := (153 * ((m : Int) + (if 2 < m then -3 else 9)) + 2) / 5 + (d : Int) - 1
  let doe : Int := yoe * 365 + yoe / 4 - yoe / 100 + doy
  era * 146097 + doe - 719468

/-- Epoch milliseconds of a civil date/time read from digit characters,
with range validation; `none` when any component is out of range. -/
def civilToMs (y1 y2 y3 y4 m1 m2 d1 d2 : Char) (hh mi ss : Nat) : Option Int :=
  let y : Int := (digitsToNat [y1, y2, y3, y4] : Nat)
  let mo := digitsToNat [m1, m2]
  let d := digitsToNat [d1, d2]
  if [y1, y2, y3, y4, m1, m2, d1, d2].all Char.isDigit &&
      decide (1 ≤ mo) && decide (mo ≤ 12) &&
      decide (1 ≤ d) && decide (d ≤ daysInMonth y mo) &&
      decide (hh ≤ 23) && decide (mi ≤ 59) && decide (ss ≤ 59) then
    some (daysFromCivil y mo d * 86400000 + ((hh * 3600 + mi * 60 + ss : Nat) : Int) * 1000)
  else none

/-- Model of the JavaScript runtime's `Date.parse`, restricted to the two
ISO-8601 forms the server documents for its time filters
(`YYYY-MM-DD`, interpreted as UTC midnight, and `YYYY-MM-DDTHH:MM:SSZ`);
every other string is treated as unparseable.  Returns epoch
milliseconds. -/
def dateParse (s : String) : Option Int :=
  match s.toList with
  | [y1, y2, y3, y4, '-', m1, m2, '-', d1, d2] =>
    civilToMs y1 y2 y3 y4 m1 m2 d1 d2 0 0 0
  | [y1, y2, y3, y4, '-', m1, m2, '-', d1, d2, 'T',
     h1, h2, ':', n1, n2, ':', s1, s2, 'Z'] =>
    if [h1, h2, n1, n2, s1, s2].all Char.isDigit then
      civilToMs y1 y2 y3 y4 m1 m2 d1 d2
        (digitsToNat [h1, h2]) (digitsToNat [n1, n2]) (digitsToNat [s1, s2])
    else none
  | _ => none

/-- Embedding of `toUnixSeconds` (server.ts lines 82-99): null yields none;
a finite number goes through the milliseconds heuristic; a non-finite
number yields none; a string is trimmed, an empty trim yields none, a
digit-only trim is converted like a number, and anything else is given to
`Date.parse`, whose success is floor-divided into seconds and whose
failure yields none. -/
def toUnixSeconds : TimeInput → Option Int
  | .jnull => none
  | .jnum q => some (jsNumToUnix q)
  | .jnonfinite => none
  | .jstr s =>
    let t := jsTrim s
    if t == "" then none
    else if t.toList.all Char.isDigit then
      some (jsNumToUnix (digitsToNat t.toList : Nat))
    else
      match dateParse t with
      | some ms => some (Int.fdiv ms 1000)
      | none => none

/-- Applies `toUnixSeconds` to an optional string argument the way the
`searchEntries` handler does: an absent field is the null case. -/
def toUnixSecondsOptStr : Option String → Option Int
  | none => toUnixSeconds .jnull
  | some s => toUnixSeconds (.jstr s)

/-- Embedding of the request-path selection of `searchEntries` (server.ts
lines 569-574): the category-scoped path when only `category_id` is
present, the feed-scoped path when only `feed_id` is present, and the
global path otherwise — including when both are present. -/
def searchEntriesPath (category_id feed_id : Option Int) : String :=
  if category_id.isSome && feed_id.isNone then
    "/v1/categories/" ++ toString (category_id.getD 0) ++ "/entries"
  else if feed_id.isSome && category_id.isNone then
    "/v1/feeds/" ++ toString (feed_id.getD 0) ++ "/entries"
  else
    "/v1/entries"

/-- Arguments of the `searchEntries` tool (server.ts lines 460-531); every
field is optional in the input schema. -/
structure SearchArgs where
  category_id : Option Int := none
  feed_id : Option Int := none
  search : Option String := none
  status : Option String := none
  starred : Option Bool := none
  limit : Option Int := none
  offset : Option Int := none
  order : Option String := none
  direction : Option String := none
  before : Option String := none
  after : Option String := none
  published_before : Option String := none
  published_after : Option String := none
  changed_before : Option String := none
  changed_after : Option String := none
  before_entry_id : Option Int := none
  after_entry_id : Option Int := none
deriving Repr, DecidableEq

/-- JavaScript truthiness of an optional string: present and non-empty. -/
def strTruthy (o : Option String) : Bool := !(o.getD "" == "")

/-- Splitting on commas, as `String.prototype.split(',')` does: every
comma separates, empty parts are kept. -/
def splitCommaAux : List Char → List Char → List String
  | [], acc => [String.mk acc.reverse]
  | c :: rest, acc =>
    if c = ',' then String.mk acc.reverse :: splitCommaAux rest []
    else splitCommaAux rest (c :: acc)

/-- The effective limit of `searchEntries` (server.ts line 542): a positive
numeric `limit` is used as given, anything else falls back to 20. -/
def limitValue : Option Int → Int
  | some l => if 0 < l then l else 20
  | none => 20

/-- One optional time filter of the outgoing query string (server.ts
lines 554-565): present exactly when `toUnixSeconds` produced a value. -/
def timeParam (name : String) (v : Option String) : List (String × String) :=
  match toUnixSecondsOptStr v with
  | some ts => [(name, toString ts)]
  | none => []

/-- Embedding of the query-parameter construction of `searchEntries`
(server.ts lines 534-567), as the ordered key/value list the
URLSearchParams accumulates. -/
def buildSearchParams (args : SearchArgs) : List (String × String) :=
  (if strTruthy args.search then [("search", args.search.getD "")] else []) ++
  (if strTruthy args.status then
      (((splitCommaAux (args.status.getD "").toList []).map jsTrim).filter
        (fun s => s == "read" || s == "unread" || s == "removed")).map
        (fun s => ("status", s))
    else []) ++
  (match args.starred with
   | some b => [("starred", if b then "true" else "false")]
   | none => []) ++
  (match args.offset with
   | some o => [("offset", toString o)]
   | none => []) ++
  [("limit", toString (limitValue args.limit))] ++
  [("order", if strTruthy args.order then args.order.getD "" else "published_at")] ++
  [("direction", if strTruthy args.direction then args.direction.getD "" else "desc")] ++
  timeParam "before" args.before ++
  timeParam "after" args.after ++
  timeParam "published_before" args.published_before ++
  timeParam "published_after" args.published_after ++
  timeParam "changed_before" args.changed_before ++
  timeParam "changed_after" args.changed_after ++
  (match args.before_entry_id with
   | some i => [("before_entry_id", toString i)]
   | none => []) ++
  (match args.after_entry_id with
   | some i => [("after_entry_id", toString i)]
   | none => [])

/-- Pagination metadata returned by `searchEntries`. -/
structure PageInfo where
  has_more : Bool
  next_offset : Option Int
deriving Repr, DecidableEq

/-- The offset used by the pagination computation (server.ts line 580):
a positive numeric `offset` is used as given, anything else becomes 0. -/
def pageOffsetNum : Option Int → Int
  | some o => if 0 < o then o else 0
  | none => 0

/-- Embedding of the pagination computation of `searchEntries` (server.ts
lines 579-584): `has_more = offsetNum + count < total` and
`next_offset = has_more ? offsetNum + count : null`. -/
def searchEntriesPage (total : Int) (offset : Option Int) (returnedCount : Nat) :
    PageInfo :=
  let offsetNum := pageOffsetNum offset
  { has_more := decide (offsetNum + (returnedCount : Int) < total)
    next_offset :=
      if offsetNum + (returnedCount : Int) < total then
        some (offsetNum + (returnedCount : Int))
      else none }

/-- Modelled from the spec: the numeric-id hint of the unified fuzzy
resolver (spec section 4.2), parsed when the entire trimmed query consists
of decimal digits.  The `resolveId` tool is declared in the repository's
CLAUDE.md and README but its implementation is absent from src/. -/
def numericHint (q : String) : Option Int :=
  let t := jsTrim q
  if !(t == "") && t.toList.all Char.isDigit then some ((digitsToNat t.toList : Nat) : Int)
  else none

/-- Modelled from the spec: the candidate scorer of the unified fuzzy
resolver (spec section 4.2); the highest satisfied tier wins: exact fold
100, numeric id 90, collapsed 70, token subset 50, substring 30, else 0. -/
def scoreCandidate (q : String) (hint : Option Int) (id : Int) (title : String) :
    Nat :=
  if toLower q == toLower title then 100
  else if hint == some id then 90
  else if collapseNonAlnum q == collapseNonAlnum title && !(collapseNonAlnum q == "") then 70
  else if tokensAreSubset (tokenizeAlnum q) (tokenizeAlnum title) then 50
  else if jsIncludes (toLower title) (toLower q) && !(q == "") then 30
  else 0

/-- A catalog entry paired with its confidence score (spec section 3). -/
structure ScoredCandidate where
  id : Int
  title : String
  score : Nat
deriving Repr, DecidableEq

/-- Lexicographic strict order on character lists, by code point. -/
def charListLt : List Char → List Char → Bool
  | [], [] => false
  | [], _ :: _ => true
  | _ :: _, [] => false
  | a :: as_, b :: bs => decide (a.toNat < b.toNat) || (a == b && charListLt as_ bs)

/-- Ordering of scored candidates: score descending, then title ascending
(spec section 3). -/
def scLe (a b : ScoredCandidate) : Bool :=
  decide (b.score < a.score) ||
    (a.score == b.score && (charListLt a.title.toList b.title.toList || a.title == b.title))

/-- Ordered insertion for the stable sort of scored candidates. -/
def scInsert (a : ScoredCandidate) : List ScoredCandidate → List ScoredCandidate
  | [] => [a]
  | b :: bs => if scLe a b then a :: b :: bs else b :: scInsert a bs

/-- Stable insertion sort of scored candidates by `scLe`. -/
def fuzzySort : List ScoredCandidate → List ScoredCandidate
  | [] => []
  | a :: as_ => scInsert a (fuzzySort as_)

/-- Modelled from the spec: the retention step of the unified fuzzy
resolver (spec section 4.4) — every candidate scoring at least 30 is kept,
and an exact numeric-id hit is kept regardless of score. -/
def fuzzyRetained (q : String) (items : List (Int × String)) :
    List ScoredCandidate :=
  let hint := numericHint q
  (items.map (fun it => ScoredCandidate.mk it.1 it.2 (scoreCandidate q hint it.1 it.2))).filter
    (fun sc => decide (30 ≤ sc.score) || hint == some sc.id)

/-- Modelled from the spec: the effective per-kind limit of the unified
fuzzy resolver (spec section 4.4) — caller-supplied, default 10, hard
ceiling 25. -/
def effLimit (limitPerKind : Option Nat) : Nat :=
  min (limitPerKind.getD 10) 25

/-- Result of the unified fuzzy resolver (spec section 6). -/
structure FuzzyResult where
  inferredKind : Option String
  exactIdMatch : Option (String × Int)
  categories : List ScoredCandidate
  feeds : List ScoredCandidate
  truncated : Bool
deriving Repr, DecidableEq

/-- Modelled from the spec: the unified fuzzy resolver `resolveId`
(spec section 4.4).  Scores both collections, retains scores of at least
30 plus exact id hits, sorts by score descending then title ascending,
truncates each collection independently to the effective limit, sets the
truncated flag when either collection had more candidates than the limit,
infers a kind only when exactly one collection is non-empty, and reports
an exact-id match with categories checked before feeds. -/
def resolveFuzzy (cats feeds : List (Int × String)) (q : String)
    (limitPerKind : Option Nat) : FuzzyResult :=
  let rc := fuzzySort (fuzzyRetained q cats)
  let rf := fuzzySort (fuzzyRetained q feeds)
  let lim := effLimit limitPerKind
  { inferredKind :=
      if !rc.isEmpty && rf.isEmpty then some "category"
      else if !rf.isEmpty && rc.isEmpty then some "feed"
      else none
    exactIdMatch :=
      match numericHint q with
      | some h =>
        if cats.any (fun it => it.1 == h) then some ("category", h)
        else if feeds.any (fun it => it.1 == h) then some ("feed", h)
        else none
      | none => none
    categories := rc.take lim
    feeds := rf.take lim
    truncated := decide (lim < rc.length) || decide (lim < rf.length) }

/-- C1 counterexample: with category_id = 1 and feed_id = 2 both supplied,
the handler builds the global entries path, not the category-scoped path
that supplying only category_id would produce — the claim that the
category scope wins is false at this input. -/
theorem c1_both_scopes_counterexample :
    searchEntriesPath (some 1) (some 2) = "/v1/entries" ∧
    searchEntriesPath (some 1) none = "/v1/categories/1/entries" ∧
    searchEntriesPath (some 1) (some 2) ≠ searchEntriesPath (some 1) none := by
  refine ⟨rfl, by decide, by decide⟩

/-- C1 amended: for every searchEntries call in which both category_id and
feed_id are supplied, neither scope is applied — the global entries path
is used, exactly as if neither scope had been supplied. -/
theorem c1_both_scopes_global (c f : Int) :
    searchEntriesPath (some c) (some f) = "/v1/entries" ∧
    searchEntriesPath (some c) (some f) = searchEntriesPath none none :=
  ⟨rfl, rfl⟩

/-- C4: for every entries fetch with authoritative total, requested
non-negative offset (defaulting to 0 when absent) and returned count,
has_more is exactly offset + returned_count < total and next_offset is
offset + returned_count when has_more holds and null otherwise, also when
returned_count is 0. -/
theorem c4_pagination (total : Int) (offset : Option Int) (returnedCount : Nat)
    (h : ∀ o, offset = some o → 0 ≤ o) :
    (searchEntriesPage total offset returnedCount).has_more
        = decide (offset.getD 0 + (returnedCount : Int) < total) ∧
    (searchEntriesPage total offset returnedCount).next_offset
        = (if offset.getD 0 + (returnedCount : Int) < total
           then some (offset.getD 0 + (returnedCount : Int)) else none) := by
  have hoff : pageOffsetNum offset = offset.getD 0 := by
    cases offset with
    | none => rfl
    | some o =>
      have h0 := h o rfl
      simp only [pageOffsetNum, Option.getD_some]
      split <;> omega
  constructor <;> simp [searchEntriesPage, hoff]

/-- Witness for C4 at the spec's example: total 30, offset absent,
20 items returned. -/
theorem c4_pagination_witness :
    (searchEntriesPage 30 none 20).has_more
        = decide ((none : Option Int).getD 0 + ((20 : Nat) : Int) < 30) ∧
    (searchEntriesPage 30 none 20).next_offset
        = (if (none : Option Int).getD 0 + ((20 : Nat) : Int) < 30
           then some ((none : Option Int).getD 0 + ((20 : Nat) : Int)) else none) :=
  c4_pagination 30 none 20 (by simp)

/-- C8: collapse("Café") equals collapse("Cafe"); the singleton category
"Café" resolves Matched for query "Cafe"; the feed "AI Code King"
resolves Matched for query "AICodeKing" via the collapsed-equality tier
while the exact and case-insensitive tiers find nothing. -/
theorem c8_collapsed_invariance :
    collapseNonAlnum "Café" = collapseNonAlnum "Cafe" ∧
    resolveCategoryId [⟨1, "Café"⟩] "Cafe" = .matched 1 ∧
    feedExactTitle [⟨7, "AI Code King", none, none⟩] "AICodeKing" = none ∧
    feedCiEquals [⟨7, "AI Code King", none, none⟩] "AICodeKing" = none ∧
    feedCollapsedEq [⟨7, "AI Code King", none, none⟩] "AICodeKing"
        = some ⟨7, "AI Code King", none, none⟩ ∧
    resolveFeedId [⟨7, "AI Code King", none, none⟩] "AICodeKing" = .matched 7 := by
  refine ⟨by decide, by decide, by decide, by decide, by decide, by decide⟩

/-- C9: the ISO string "2024-01-01T00:00:00Z", the unix-seconds number
1704067200 and the unix-milliseconds number 1704067200000 all normalize
to the same unix-seconds value. -/
theorem c9_normalize_agreement :
    toUnixSeconds (.jstr "2024-01-01T00:00:00Z") = some 1704067200 ∧
    toUnixSeconds (.jnum 1704067200) = some 1704067200 ∧
    toUnixSeconds (.jnum 1704067200000) = some 1704067200 := by
  refine ⟨by decide, ?_, ?_⟩
  · show some (jsNumToUnix 1704067200) = some 1704067200
    rw [jsNumToUnix, if_neg (by norm_num)]
    norm_num
  · show some (jsNumToUnix 1704067200000) = some 1704067200
    rw [jsNumToUnix, if_pos (by norm_num),
      show (1704067200000 : ℚ) / 1000 = 1704067200 by norm_num]
    norm_num

/-- Inserting into a sorted candidate list adds exactly one element. -/
theorem scInsert_length (a : ScoredCandidate) (l : List ScoredCandidate) :
    (scInsert a l).length = l.length + 1 := by
  induction l with
  | nil => rfl
  | cons b bs ih =>
    simp only [scInsert]
    split
    · simp
    · simp [ih]

/-- Sorting the candidate list preserves its length. -/
theorem fuzzySort_length (l : List ScoredCandidate) :
    (fuzzySort l).length = l.length := by
  induction l with
  | nil => rfl
  | cons a as_ ih => simp [fuzzySort, scInsert_length, ih]

/-- Thirty categories all of which score at least 30 for the query
"tech": the concrete instance named by the claim. -/
def cats30 : List (Int × String) :=
  (List.range 30).map (fun i => ((i + 1 : Int), "tech " ++ toString i))

/-- C2: the unified fuzzy resolver truncates the category and feed
candidate lists independently to the caller-supplied per-kind limit
(default 10, hard ceiling 25) and sets the truncated flag exactly when
either collection had more retained candidates than the limit; at the
concrete instance of 30 categories all scoring at least 30 with
limitPerKind = 10, exactly 10 categories are returned and truncated is
true. -/
theorem c2_fuzzy_truncation (cats feeds : List (Int × String)) (q : String)
    (lim : Option Nat) :
    (resolveFuzzy cats feeds q lim).categories
        = (fuzzySort (fuzzyRetained q cats)).take (min (lim.getD 10) 25) ∧
    (resolveFuzzy cats feeds q lim).feeds
        = (fuzzySort (fuzzyRetained q feeds)).take (min (lim.getD 10) 25) ∧
    ((resolveFuzzy cats feeds q lim).truncated = true ↔
      (min (lim.getD 10) 25 < (fuzzyRetained q cats).length ∨
       min (lim.getD 10) 25 < (fuzzyRetained q feeds).length)) ∧
    cats30.length = 30 ∧
    cats30.all (fun p => 30 ≤ scoreCandidate "tech" (numericHint "tech") p.1 p.2)
        = true ∧
    (resolveFuzzy cats30 [] "tech" (some 10)).categories.length = 10 ∧
    (resolveFuzzy cats30 [] "tech" (some 10)).truncated = true := by
  refine ⟨rfl, rfl, ?_, by decide, by decide, by decide, by decide⟩
  simp [resolveFuzzy, effLimit, fuzzySort_length]

/-- C6 counterexample: in the feed list
[⟨1, "News", site http://ex.com, rss http://ex.com/rss⟩,
⟨2, "Other", site http://ex.com/blog⟩] with query "http://ex.com", the
first feed's site_url equals the query while its title does not, yet the
resolver returns Matched(1) through the case-insensitive equality tier 2
— and the substring tier 5 holds two candidates at this input, so a match
reachable only at tier 5 would have been Ambiguous instead. -/
theorem c6_url_equality_counterexample :
    feedExactTitle
        [⟨1, "News", some "http://ex.com", some "http://ex.com/rss"⟩,
         ⟨2, "Other", some "http://ex.com/blog", none⟩] "http://ex.com" = none ∧
    feedCiEquals
        [⟨1, "News", some "http://ex.com", some "http://ex.com/rss"⟩,
         ⟨2, "Other", some "http://ex.com/blog", none⟩] "http://ex.com"
        = some ⟨1, "News", some "http://ex.com", some "http://ex.com/rss"⟩ ∧
    resolveFeedId
        [⟨1, "News", some "http://ex.com", some "http://ex.com/rss"⟩,
         ⟨2, "Other", some "http://ex.com/blog", none⟩] "http://ex.com"
        = .matched 1 ∧
    (feedPartial
        [⟨1, "News", some "http://ex.com", some "http://ex.com/rss"⟩,
         ⟨2, "Other", some "http://ex.com/blog", none⟩] "http://ex.com").length
        = 2 ∧
    ("News" : String) ≠ "http://ex.com" := by
  refine ⟨by decide, by decide, by decide, by decide, by decide⟩

/-- C6 amended: tier 1 compares the title only, but the case-insensitive
tier 2 (and the collapsed tier 3) also compare site_url and feed_url;
whenever tier 1 finds nothing and tier 2 finds a feed — possibly through
one of its URLs — the resolver returns Matched with that feed's id, so a
feed whose URL equals the query is matched at tier 2, not only at
tier 5. -/
theorem c6_url_equality_amended (feeds : List Feed) (q : String) (f : Feed)
    (h1 : feedExactTitle feeds q = none)
    (h2 : feedCiEquals feeds q = some f) :
    resolveFeedId feeds q = .matched f.id := by
  simp [resolveFeedId, h1, h2]

/-- Witness for the amended C6 at the counterexample input. -/
theorem c6_url_equality_amended_witness :
    resolveFeedId
        [⟨1, "News", some "http://ex.com", some "http://ex.com/rss"⟩,
         ⟨2, "Other", some "http://ex.com/blog", none⟩] "http://ex.com"
        = .matched 1 :=
  c6_url_equality_amended _ _
    ⟨1, "News", some "http://ex.com", some "http://ex.com/rss"⟩
    (by decide) (by decide)

/-- C3: for both resolvers, at the token-subset tier 4 and the substring
tier 5 (reached only when the equality tiers found nothing): zero hits at
tier 4 with zero hits at tier 5 yields NotFound, exactly one hit at the
deciding tier yields Matched with that candidate's id, and more than one
hit yields Ambiguous carrying every hit candidate — ids and titles for
categories, plus both URLs for feeds. -/
theorem c3_tier45 (cats : List Category) (feeds : List Feed) (q : String)
    (hc : catTier123 cats q = none)
    (hf1 : feedExactTitle feeds q = none)
    (hf2 : feedCiEquals feeds q = none)
    (hf3 : feedCollapsedEq feeds q = none) :
    (catTokenCandidates cats q = [] → catPartial cats q = [] →
        resolveCategoryId cats q = .notFound) ∧
    (∀ c, catTokenCandidates cats q = [c] →
        resolveCategoryId cats q = .matched c.id) ∧
    (1 < (catTokenCandidates cats q).length →
        resolveCategoryId cats q
          = .ambiguous ((catTokenCandidates cats q).map (fun c => (c.id, c.title)))) ∧
    (catTokenCandidates cats q = [] → ∀ c, catPartial cats q = [c] →
        resolveCategoryId cats q = .matched c.id) ∧
    (catTokenCandidates cats q = [] → 1 < (catPartial cats q).length →
        resolveCategoryId cats q
          = .ambiguous ((catPartial cats q).map (fun c => (c.id, c.title)))) ∧
    (feedTokenCandidates feeds q = [] → feedPartial feeds q = [] →
        resolveFeedId feeds q = .notFound) ∧
    (∀ f, feedTokenCandidates feeds q = [f] →
        resolveFeedId feeds q = .matched f.id) ∧
    (1 < (feedTokenCandidates feeds q).length →
        resolveFeedId feeds q
          = .ambiguous ((feedTokenCandidates feeds q).map feedToCandidate)) ∧
    (feedTokenCandidates feeds q = [] → ∀ f, feedPartial feeds q = [f] →
        resolveFeedId feeds q = .matched f.id) ∧
    (feedTokenCandidates feeds q = [] → 1 < (feedPartial feeds q).length →
        resolveFeedId feeds q
          = .ambiguous ((feedPartial feeds q).map feedToCandidate)) := by
  have hcats : resolveCategoryId cats q =
      (if (catTokenCandidates cats q).length = 1 then
        .matched ((catTokenCandidates cats q).headD ⟨0, ""⟩).id
      else if 1 < (catTokenCandidates cats q).length then
        .ambiguous ((catTokenCandidates cats q).map (fun c => (c.id, c.title)))
      else if (catPartial cats q).length = 1 then
        .matched ((catPartial cats q).headD ⟨0, ""⟩).id
      else if 1 < (catPartial cats q).length then
        .ambiguous ((catPartial cats q).map (fun c => (c.id, c.title)))
      else .notFound) := by
    simp only [resolveCategoryId, hc]
  have hfeeds : resolveFeedId feeds q =
      (if (feedTokenCandidates feeds q).length = 1 then
        .matched ((feedTokenCandidates feeds q).headD ⟨0, "", none, none⟩).id
      else if 1 < (feedTokenCandidates feeds q).length then
        .ambiguous ((feedTokenCandidates feeds q).map feedToCandidate)
      else if (feedPartial feeds q).length = 1 then
        .matched ((feedPartial feeds q).headD ⟨0, "", none, none⟩).id
      else if 1 < (feedPartial feeds q).length then
        .ambiguous ((feedPartial feeds q).map feedToCandidate)
      else .notFound) := by
    simp only [resolveFeedId, hf1, hf2, hf3]
  refine ⟨?_, ?_, ?_, ?_, ?_, ?_, ?_, ?_, ?_, ?_⟩
  · intro ht hp
    rw [hcats]
    simp [ht, hp]
  · intro c hce
    rw [hcats]
    simp [hce]
  · intro hlen
    rw [hcats, if_neg (by omega), if_pos hlen]
  · intro ht c hp
    rw [hcats]
    simp [ht, hp]
  · intro ht hlen
    rw [hcats]
    simp only [ht, List.length_nil]
    rw [if_neg (by omega), if_neg (by omega), if_neg (by omega), if_pos hlen]
  · intro ht hp
    rw [hfeeds]
    simp [ht, hp]
  · intro f hfe
    rw [hfeeds]
    simp [hfe]
  · intro hlen
    rw [hfeeds, if_neg (by omega), if_pos hlen]
  · intro ht f hp
    rw [hfeeds]
    simp [ht, hp]
  · intro ht hlen
    rw [hfeeds]
    simp only [ht, List.length_nil]
    rw [if_neg (by omega), if_neg (by omega), if_neg (by omega), if_pos hlen]

/-- Witness for C3: two categories hitting the token-subset tier for
query "alpha" produce Ambiguous, and a feed list with no hit at any tier
produces NotFound. -/
theorem c3_tier45_witness :
    resolveCategoryId [⟨1, "alpha x"⟩, ⟨2, "alpha y"⟩] "alpha"
        = .ambiguous ((catTokenCandidates [⟨1, "alpha x"⟩, ⟨2, "alpha y"⟩] "alpha").map
            (fun c => (c.id, c.title))) ∧
    resolveFeedId
        [⟨3, "beta one", some "http://b1.com", none⟩, ⟨4, "beta two", none, none⟩]
        "alpha" = .notFound :=
  ⟨(c3_tier45 [⟨1, "alpha x"⟩, ⟨2, "alpha y"⟩]
      [⟨3, "beta one", some "http://b1.com", none⟩, ⟨4, "beta two", none, none⟩]
      "alpha" (by decide) (by decide) (by decide) (by decide)).2.2.1 (by decide),
   (c3_tier45 [⟨1, "alpha x"⟩, ⟨2, "alpha y"⟩]
      [⟨3, "beta one", some "http://b1.com", none⟩, ⟨4, "beta two", none, none⟩]
      "alpha" (by decide) (by decide) (by decide) (by decide)).2.2.2.2.2.1
      (by decide) (by decide)⟩

/-- Membership in a conditional list implies membership in the list. -/
theorem mem_ite_list {α : Type} {c : Prop} [Decidable c] {l : List α} {x : α}
    (h : x ∈ (if c then l else [])) : x ∈ l := by
  split at h
  · exact h
  · simp at h

/-- A pair drawn from a time-filter segment carries that segment's key. -/
theorem key_of_timeParam {k v key : String} {field : Option String}
    (h : (k, v) ∈ timeParam key field) : k = key := by
  unfold timeParam at h
  rcases he : toUnixSecondsOptStr field with _ | ts
  · rw [he] at h
    simp at h
  · rw [he] at h
    simp only [List.mem_singleton, Prod.mk.injEq] at h
    exact h.1

/-- C5: a finite number above 10^12 is floored after division by 1000; a
digit-only trimmed string is converted exactly like that number; any
other non-empty trimmed string goes through the calendar parser, whose
milliseconds are floor-divided into seconds on success; empty or null
input yields no value; and when the normalizer yields no value for the
`before` field, that field is omitted from the outgoing filter (while a
produced value is included). -/
theorem c5_temporal_normalizer :
    (∀ q : ℚ, (1000000000000 : ℚ) < q →
        toUnixSeconds (.jnum q) = some ⌊q / 1000⌋) ∧
    (∀ s : String, jsTrim s ≠ "" → (jsTrim s).toList.all Char.isDigit = true →
        toUnixSeconds (.jstr s)
          = toUnixSeconds (.jnum ((digitsToNat (jsTrim s).toList : Nat) : ℚ))) ∧
    (∀ s : String, jsTrim s ≠ "" → (jsTrim s).toList.all Char.isDigit = false →
        toUnixSeconds (.jstr s)
          = (dateParse (jsTrim s)).map (fun ms => Int.fdiv ms 1000)) ∧
    (∀ s : String, jsTrim s = "" → toUnixSeconds (.jstr s) = none) ∧
    toUnixSeconds .jnull = none ∧
    (∀ args : SearchArgs, toUnixSecondsOptStr args.before = none →
        "before" ∉ (buildSearchParams args).map Prod.fst) ∧
    (∀ args : SearchArgs, ∀ ts : Int, toUnixSecondsOptStr args.before = some ts →
        ("before", toString ts) ∈ buildSearchParams args) := by
  refine ⟨?_, ?_, ?_, ?_, rfl, ?_, ?_⟩
  · intro q h
    simp [toUnixSeconds, jsNumToUnix, if_pos h]
  · intro s h1 h2
    simp only [toUnixSeconds]
    rw [if_neg (by simp [h1]), if_pos h2]
  · intro s h1 h2
    simp only [toUnixSeconds]
    rw [if_neg (by simp [h1]), if_neg (by rw [h2]; decide)]
    cases h3 : dateParse (jsTrim s) <;> simp
  · intro s h
    simp [toUnixSeconds, h]
  · intro args h hmem
    rw [List.mem_map] at hmem
    obtain ⟨p, hp, hkey⟩ := hmem
    obtain ⟨k, v⟩ := p
    have hkey' : k = "before" := hkey
    subst hkey' 
    simp only [buildSearchParams, List.append_assoc, List.mem_append] at hp
    rcases hp with hp|hp|hp|hp|hp|hp|hp|hp|hp|hp|hp|hp|hp|hp|hp
    · have h1 := mem_ite_list hp
      simp only [List.mem_singleton, Prod.mk.injEq] at h1
      exact absurd h1.1 (by decide)
    · have h1 := mem_ite_list hp
      rw [List.mem_map] at h1
      obtain ⟨s, _, hs⟩ := h1
      have : ("before" : String) = "status" := by
        have := congrArg Prod.fst hs
        simpa using this.symm
      exact absurd this (by decide)
    · revert hp
      cases args.starred with
      | none => intro hp; simp at hp
      | some b =>
        intro hp
        simp only [List.mem_singleton, Prod.mk.injEq] at hp
        exact absurd hp.1 (by decide)
    · revert hp
      cases args.offset with
      | none => intro hp; simp at hp
      | some o =>
        intro hp
        simp only [List.mem_singleton, Prod.mk.injEq] at hp
        exact absurd hp.1 (by decide)
    · simp only [List.mem_singleton, Prod.mk.injEq] at hp
      exact absurd hp.1 (by decide)
    · simp only [List.mem_singleton, Prod.mk.injEq] at hp
      exact absurd hp.1 (by decide)
    · simp only [List.mem_singleton, Prod.mk.injEq] at hp
      exact absurd hp.1 (by decide)
    · simp only [timeParam, h] at hp
      simp at hp
    · exact absurd (key_of_timeParam hp) (by decide)
    · exact absurd (key_of_timeParam hp) (by decide)
    · exact absurd (key_of_timeParam hp) (by decide)
    · exact absurd (key_of_timeParam hp) (by decide)
    · exact absurd (key_of_timeParam hp) (by decide)
    · revert hp
      cases args.before_entry_id with
      | none => intro hp; simp at hp
      | some i =>
        intro hp
        simp only [List.mem_singleton, Prod.mk.injEq] at hp
        exact absurd hp.1 (by decide)
    · revert hp
      cases args.after_entry_id with
      | none => intro hp; simp at hp
      | some i =>
        intro hp
        simp only [List.mem_singleton, Prod.mk.injEq] at hp
        exact absurd hp.1 (by decide)
  · intro args ts h
    simp only [buildSearchParams, List.append_assoc, List.mem_append]
    refine .inr (.inr (.inr (.inr (.inr (.inr (.inr (.inl ?_)))))))
    simp [timeParam, h]


/-- Witness for C5 across its cases: a large number, a digit-only string,
a calendar string, a blank string, an unparseable `before` field (omitted)
and a parseable one (included). -/
theorem c5_temporal_normalizer_witness :
    toUnixSeconds (.jnum 2000000000000) = some ⌊(2000000000000 : ℚ) / 1000⌋ ∧
    toUnixSeconds (.jstr "1704067200")
      = toUnixSeconds (.jnum ((digitsToNat (jsTrim "1704067200").toList : Nat) : ℚ)) ∧
    toUnixSeconds (.jstr "2024-01-01")
      = (dateParse (jsTrim "2024-01-01")).map (fun ms => Int.fdiv ms 1000) ∧
    toUnixSeconds (.jstr "   ") = none ∧
    "before" ∉ (buildSearchParams { before := some "nonsense" }).map Prod.fst ∧
    ("before", toString (1704067200 : Int))
      ∈ buildSearchParams { before := some "2024-01-01" } :=
  ⟨c5_temporal_normalizer.1 2000000000000 (by norm_num),
   c5_temporal_normalizer.2.1 "1704067200" (by decide) (by decide),
   c5_temporal_normalizer.2.2.1 "2024-01-01" (by decide) (by decide),
   c5_temporal_normalizer.2.2.2.1 "   " (by decide),
   c5_temporal_normalizer.2.2.2.2.2.1 { before := some "nonsense" } (by decide),
   c5_temporal_normalizer.2.2.2.2.2.2 { before := some "2024-01-01" } 1704067200
     (by decide)⟩

/-- Splitting a list with no alphanumeric character yields no token. -/
theorem splitAlnumRuns_all_sep (cs : List Char) (h : ∀ c ∈ cs, c.isAlphanum = false) :
    splitAlnumRuns cs [] = [] := by
  induction cs with
  | nil => rfl
  | cons c rest ih =>
    simp only [splitAlnumRuns]
    rw [if_neg (by simp [h c (by simp)])]
    simp only [List.isEmpty_nil, if_pos rfl]
    exact ih (fun x hx => h x (by simp [hx]))

/-- A query whose collapsed form is empty has no tokens. -/
theorem tokenizeAlnum_of_collapsed_empty (q : String)
    (hq : collapseNonAlnum q = "") : tokenizeAlnum q = [] := by
  have hfil : (toLower q).toList.filter Char.isAlphanum = [] :=
    congrArg String.data hq
  have hall : ∀ c ∈ (toLower q).toList, c.isAlphanum = false := by
    intro c hc
    have := List.filter_eq_nil_iff.mp hfil c hc
    simpa using this
  exact splitAlnumRuns_all_sep (toLower q).toList hall

/-- The empty pattern is contained in every string, as with the
JavaScript `includes`. -/
theorem jsIncludes_empty_pat (s : String) : jsIncludes s "" = true := by
  unfold jsIncludes
  cases h : s.toList with
  | nil => rfl
  | cons c t => rfl

/-- C10: a query whose collapsed form is empty, over a non-empty category
listing where no title matches it exactly or case-insensitively and no
title itself collapses to the empty string, never produces
CATEGORY_NOT_FOUND — the collapsed-substring tier matches every category,
giving Matched for a singleton listing and AMBIGUOUS_CATEGORY listing
every category otherwise. -/
theorem c10_empty_collapsed_query (cats : List Category) (q : String)
    (hq : collapseNonAlnum q = "")
    (hne : cats ≠ [])
    (h1 : ∀ c ∈ cats, c.title ≠ q)
    (h2 : ∀ c ∈ cats, toLower c.title ≠ toLower q)
    (h3 : ∀ c ∈ cats, collapseNonAlnum c.title ≠ "") :
    resolveCategoryId cats q ≠ .notFound ∧
    (∀ c, cats = [c] → resolveCategoryId cats q = .matched c.id) ∧
    (1 < cats.length →
        resolveCategoryId cats q
          = .ambiguous (cats.map (fun c => (c.id, c.title)))) := by
  have f1 : cats.find? (fun c => c.title == q) = none :=
    List.find?_eq_none.mpr (fun c hc => by simpa using h1 c hc)
  have f2 : cats.find? (fun c => toLower c.title == toLower q) = none :=
    List.find?_eq_none.mpr (fun c hc => by simpa using h2 c hc)
  have f3 : cats.find? (fun c => collapseNonAlnum c.title == collapseNonAlnum q) = none := by
    refine List.find?_eq_none.mpr (fun c hc => ?_)
    rw [hq]
    simpa using h3 c hc
  have htier : catTier123 cats q = none := by
    simp [catTier123, f1, f2, f3]
  have htok : catTokenCandidates cats q = [] := by
    refine List.filter_eq_nil_iff.mpr (fun c hc => ?_)
    rw [tokenizeAlnum_of_collapsed_empty q hq]
    simp [tokensAreSubset]
  have hpart : catPartial cats q = cats := by
    refine List.filter_eq_self.mpr (fun c hc => ?_)
    rw [hq, jsIncludes_empty_pat (collapseNonAlnum c.title)]
    simp
  have hres : resolveCategoryId cats q =
      (if cats.length = 1 then .matched (cats.headD ⟨0, ""⟩).id
       else if 1 < cats.length then
         .ambiguous (cats.map (fun c => (c.id, c.title)))
       else .notFound) := by
    simp only [resolveCategoryId, htier, htok, hpart, List.length_nil]
    norm_num
  refine ⟨?_, ?_, ?_⟩
  · rw [hres]
    have hlen : 1 ≤ cats.length := List.length_pos.mpr hne
    by_cases h : cats.length = 1
    · rw [if_pos h]
      simp
    · rw [if_neg h, if_pos (by omega)]
      simp
  · intro c hc
    subst hc
    rw [hres]
    simp
  · intro hlen
    rw [hres, if_neg (by omega), if_pos hlen]


/-- Witness for C10 at query "???" over two categories: the result is the
ambiguity listing both categories, not CATEGORY_NOT_FOUND. -/
theorem c10_empty_collapsed_query_witness :
    resolveCategoryId [⟨1, "Tech"⟩, ⟨2, "News"⟩] "???" ≠ .notFound ∧
    resolveCategoryId [⟨1, "Tech"⟩, ⟨2, "News"⟩] "???"
      = .ambiguous (([⟨1, "Tech"⟩, ⟨2, "News"⟩] : List Category).map
          (fun c => (c.id, c.title))) :=
  ⟨(c10_empty_collapsed_query [⟨1, "Tech"⟩, ⟨2, "News"⟩] "???" (by decide)
      (by decide) (by decide) (by decide) (by decide)).1,
   (c10_empty_collapsed_query [⟨1, "Tech"⟩, ⟨2, "News"⟩] "???" (by decide)
      (by decide) (by decide) (by decide) (by decide)).2.2 (by decide)⟩

end MinifluxMcp


